import Mathlib

/-!
Verification of the hex_toolset real-time broadcast subsystem.

The definitions below are a shallow embedding of the Go sources:
- `pkg/websocket` (file referenced as `pkg/sfc_api/models.go` in the claim
  list): `Hub`, its event-loop cases (`register`, `unregister`, `broadcast`),
  `Hub.Shutdown`, the client `writePump`, and `WSHandler`;
- `pkg/managers/broadcast_manager.go`: the directory-watcher event handling,
  the `/health` route, and `BroadcastManager.Stop`.

Go channels are modelled as explicit state (`ChanState`): a capacity, a FIFO
buffer, and a close counter (so double-closing is observable).  Clients are
identified by natural numbers; the Hub registry (`map[*client]bool` in Go) is
modelled as a duplicate-free list of client ids kept in registration order,
with a per-id map of outbound-channel states.  Go map iteration order is
unspecified, so a broadcast's visit order is any permutation of the registry
(`ValidOrder`).  Concurrency is modelled by the Hub's own serialization: all
registry mutation happens inside the single event loop, so each event is a
pure state transition.
-/

namespace HexToolset

/-- A message payload: an opaque byte sequence (Go `[]byte`). -/
abbrev Msg : Type := List Nat

/-- The byte written between batched messages (`[]byte("\n")` in `writePump`). -/
def newlineByte : Nat := 10

/-- State of one Go channel: its capacity, its FIFO buffer, and how many times
`close` has been called on it (0 = open; more than 1 would be a double close,
which panics in Go). -/
structure ChanState where
  cap : Nat
  buf : List Msg
  closeCount : Nat
deriving DecidableEq

/-- A channel is closed once `close` has been called on it at least once. -/
def ChanState.closed (ch : ChanState) : Bool := ch.closeCount != 0

/-- Effect of Go `close(ch)`: increments the close counter. -/
def ChanState.close (ch : ChanState) : ChanState :=
  { ch with closeCount := ch.closeCount + 1 }

/-- State of the websocket `Hub` (`pkg/websocket.Hub`):
`clients` is the registry (map keys, kept in registration order, no
duplicates), `sendOf` gives each client id's outbound channel state,
`broadcastCh`/`registerCh`/`unregisterCh` are the three event channels, and
`closed` is the `h.closed` flag set by `Shutdown`. -/
structure Hub where
  clients : List Nat
  sendOf : Nat → ChanState
  broadcastCh : ChanState
  registerCh : ChanState
  unregisterCh : ChanState
  closed : Bool

/-- Capacity of a client's outbound channel (`make(chan []byte, 256)` in
`WSHandler`). -/
def sendCap : Nat := 256

/-- A freshly created client outbound channel. -/
def freshSend : ChanState := { cap := sendCap, buf := [], closeCount := 0 }

/-- `NewHub`: empty registry, three open event channels with the source's
buffer sizes (1024, 128, 128); `send0` gives the ambient channel state of
not-yet-registered client ids. -/
def newHub (send0 : Nat → ChanState) : Hub :=
  { clients := []
    sendOf := send0
    broadcastCh := { cap := 1024, buf := [], closeCount := 0 }
    registerCh := { cap := 128, buf := [], closeCount := 0 }
    unregisterCh := { cap := 128, buf := [], closeCount := 0 }
    closed := false }

/-- Event-loop `register` case: `h.clients[c] = true` (map insert; set
semantics, so a present client is unchanged; a new client is appended, which
records registration order). -/
def hubRegister (h : Hub) (c : Nat) : Hub :=
  if c ∈ h.clients then h else { h with clients := h.clients ++ [c] }

/-- Event-loop `unregister` case: `if _, ok := h.clients[c]; ok {
delete(h.clients, c); close(c.send) }` — removal and channel close happen only
when the client is present. -/
def hubUnregister (h : Hub) (c : Nat) : Hub :=
  if c ∈ h.clients then
    { h with
      clients := h.clients.erase c
      sendOf := fun x => if x = c then (h.sendOf c).close else h.sendOf x }
  else h

/-- One iteration of the broadcast loop body for client `c`:
`select { case c.send <- msg: default: close(c.send); delete(h.clients, c) }`.
The non-blocking send succeeds exactly when the buffer has room; otherwise the
slow client is dropped: its channel is closed and it is removed from the
registry. -/
def broadcastStep (msg : Msg) (h : Hub) (c : Nat) : Hub :=
  if (h.sendOf c).buf.length < (h.sendOf c).cap then
    { h with
      sendOf := fun x =>
        if x = c then { h.sendOf c with buf := (h.sendOf c).buf ++ [msg] }
        else h.sendOf x }
  else
    { h with
      clients := h.clients.erase c
      sendOf := fun x => if x = c then (h.sendOf c).close else h.sendOf x }

/-- Event-loop `broadcast` case: `for c := range h.clients { ... }`, folded
over the iteration order `order` produced by Go's map range. -/
def hubBroadcast (msg : Msg) (order : List Nat) (h : Hub) : Hub :=
  order.foldl (broadcastStep msg) h

/-- The iteration orders Go's `for c := range h.clients` may produce: map
range visits each key exactly once, in an unspecified order, i.e. any
permutation of the registry.  (Entries deleted during iteration are only the
ones already visited, so the full original key set is produced.) -/
def ValidOrder (h : Hub) (order : List Nat) : Prop :=
  order.Perm h.clients

/-- `Hub.Shutdown`: under the mutex, return immediately if already closed;
otherwise set `closed`, close every registered client's channel, clear the
registry, and close the three event channels. -/
def hubShutdown (h : Hub) : Hub :=
  if h.closed then h
  else
    { clients := []
      sendOf := fun c => if c ∈ h.clients then (h.sendOf c).close else h.sendOf c
      broadcastCh := h.broadcastCh.close
      registerCh := h.registerCh.close
      unregisterCh := h.unregisterCh.close
      closed := true }

/-- `h.register <- cl` as performed by `WSHandler`: sending on a closed
channel panics in Go (`none`); otherwise the event is delivered and the
serialized loop processes it. -/
def registerAttempt (h : Hub) (c : Nat) : Option Hub :=
  if h.registerCh.closed then none else some (hubRegister h c)

/-- Outcome of `WSHandler` after a successful upgrade: either the client is
registered, or a panic was recovered by the handler's deferred `recover` and
turned into an internal-server-error response, leaving the Hub unchanged. -/
inductive WsOutcome where
  | registered (h : Hub)
  | internalError (h : Hub)

/-- `WSHandler` body after the upgrade: attempt `h.register <- cl`; a panic
(send on closed channel) is caught by the fault barrier. -/
def wsHandle (h : Hub) (c : Nat) : WsOutcome :=
  match registerAttempt h c with
  | some h2 => WsOutcome.registered h2
  | none => WsOutcome.internalError h

/-- What one wake of the write pump's send-channel case does: either write one
frame of bytes, or (channel closed and drained) write a close control message
and stop. -/
inductive WakeAction where
  | frame (bytes : List Nat)
  | closeNotify
deriving DecidableEq

/-- The batching loop of `writePump`: `n := len(c.send); for i := 0; i < n;
i++ { w.Write([]byte("\n")); w.Write(<-c.send) }` — starting from the bytes
already written (`w`), append a newline and the next queued message for each
remaining buffered message. -/
def batchLoop : List Nat → List Msg → List Nat
  | w, [] => w
  | w, x :: xs => batchLoop (w ++ newlineByte :: x) xs

/-- One wake of `writePump` on its send channel (`msg, ok := <-c.send`):
if the buffer is empty and the channel closed, `ok` is false — write a close
message and return; if a message is buffered, write it and drain all
currently queued messages into the same frame; if the buffer is empty and the
channel open, the receive blocks (`none`). -/
def writePumpWake (ch : ChanState) : Option (WakeAction × ChanState) :=
  match ch.buf with
  | [] => if ch.closed then some (WakeAction.closeNotify, ch) else none
  | m :: rest => some (WakeAction.frame (batchLoop m rest), { ch with buf := [] })

/-- Modelled from the spec: messages "joined with a single newline delimiter",
pairwise, preserving FIFO order — the spec-side description of the batched
frame, to be compared with `batchLoop`. -/
def specJoin : List Msg → List Nat
  | [] => []
  | [m] => m
  | m :: rest => m ++ newlineByte :: specJoin rest

/-- An HTTP response: status code and body. -/
structure HttpResponse where
  status : Nat
  body : String
deriving DecidableEq

/-- Result of routing one request through the manager's mux. -/
inductive RouteResult where
  | response (r : HttpResponse)
  | wsUpgrade
  | notFound
deriving DecidableEq

/-- The `/health` handler's response: `w.WriteHeader(http.StatusOK);
w.Write([]byte("ok"))`. -/
def healthResponse : HttpResponse := { status := 200, body := "ok" }

/-- The manager's mux (`mux.HandleFunc("/health", ...)`,
`mux.Handle("/ws", ...)`): the `/health` closure consults nothing — in
particular not the Hub — so the response is computed identically in every Hub
state. -/
def serveMux (hub : Hub) (path : String) : RouteResult :=
  if path = "/health" then RouteResult.response healthResponse
  else if path = "/ws" then RouteResult.wsUpgrade
  else RouteResult.notFound

/-- Nanoseconds per second (`time.Second`). -/
def nsPerSecond : Nat := 1000000000

/-- `writeWait = 10 * time.Second`, in nanoseconds. -/
def writeWaitNs : Nat := 10 * nsPerSecond

/-- `pongWait = 60 * time.Second`, in nanoseconds. -/
def pongWaitNs : Nat := 60 * nsPerSecond

/-- `pingPeriod = (pongWait * 9) / 10`, computed in `time.Duration` (int64
nanoseconds) integer arithmetic; `pongWaitNs * 9` stays far below `2 ^ 63`, so
the Go computation does not overflow and agrees with ℕ arithmetic. -/
def pingPeriodNs : Nat := pongWaitNs * 9 / 10

/-- `maxMessageSize = 64`. -/
def maxMessageSize : Nat := 64

/-- The `fsnotify.Create` operation bit. -/
def fsnotifyCreate : Nat := 1

/-- A filesystem notification event: path and operation bitmask. -/
structure FsEvent where
  name : String
  op : Nat
deriving DecidableEq

/-- The filesystem as seen by one iteration of the watcher loop:
`statIsDir p` models `os.Stat(p)` (`none` = error, `some d` = success with
`IsDir() = d`), and `readFile p` models `os.ReadFile(p)` after the settle
delay (`none` = read error). -/
structure FsView where
  statIsDir : String → Option Bool
  readFile : String → Option (List Nat)

/-- Observable outcome of handling one watcher event: how long the loop
slept (settle delay), the `Hub.Broadcast` calls it made, and whether the loop
keeps running afterwards. -/
structure EventResult where
  delayMs : Nat
  broadcasts : List (List Nat)
  keepRunning : Bool
deriving DecidableEq

/-- The settle delay: `time.Sleep(100 * time.Millisecond)`. -/
def settleDelayMs : Nat := 100

/-- One `event := <-watcher.Events` iteration of `startWatcher`'s loop:
if the event has the Create bit, skip directories (`os.Stat` succeeded and
`IsDir()`), otherwise sleep the settle delay and read the file; on a read
error log and `continue` with no broadcast; on success call `Hub.Broadcast`
once with the file's bytes.  Every path continues the loop. -/
def watcherHandleEvent (fs : FsView) (e : FsEvent) : EventResult :=
  if e.op &&& fsnotifyCreate = fsnotifyCreate then
    if (fs.statIsDir e.name).getD false then
      { delayMs := 0, broadcasts := [], keepRunning := true }
    else
      match fs.readFile e.name with
      | some content =>
          { delayMs := settleDelayMs, broadcasts := [content], keepRunning := true }
      | none =>
          { delayMs := settleDelayMs, broadcasts := [], keepRunning := true }
  else { delayMs := 0, broadcasts := [], keepRunning := true }

/-- The fields of `BroadcastManager` that `Stop` can observe or affect:
whether `Run` has installed the hub, the server, and the cancel function, and
whether the internal context has been cancelled. -/
structure BroadcastManagerS where
  hubSet : Bool
  serverSet : Bool
  cancelSet : Bool
  ctxCancelled : Bool
deriving DecidableEq

/-- Invoking `m.cancel()`: calling a nil function panics in Go (`none`);
a non-nil `context.CancelFunc` just marks the context cancelled (and is
itself idempotent). -/
def cancelCall (m : BroadcastManagerS) : Option BroadcastManagerS :=
  if m.cancelSet then some { m with ctxCancelled := true } else none

/-- `BroadcastManager.Stop`: `if m.cancel != nil { m.cancel() }` — the nil
guard makes the call safe before `Run`. -/
def bmStop (m : BroadcastManagerS) : Option BroadcastManagerS :=
  if m.cancelSet then cancelCall m else some m

/-- A concrete ambient channel map: every client id has a fresh channel. -/
def allFresh : Nat → ChanState := fun _ => freshSend

/-- A concrete hub as built by `NewHub`. -/
def hubInit : Hub := newHub allFresh

/-- A concrete hub with clients 1 and 2 registered, in that order. -/
def hub2 : Hub := hubRegister (hubRegister hubInit 1) 2

/-- A small full channel: capacity 2, two queued messages, open. -/
def fullChan : ChanState := { cap := 2, buf := [[1], [2]], closeCount := 0 }

/-- A concrete hub where client 1's outbound queue is at capacity and client
2's queue has room. -/
def hubW : Hub :=
  { clients := [1, 2]
    sendOf := fun x => if x = 1 then fullChan else freshSend
    broadcastCh := { cap := 1024, buf := [], closeCount := 0 }
    registerCh := { cap := 128, buf := [], closeCount := 0 }
    unregisterCh := { cap := 128, buf := [], closeCount := 0 }
    closed := false }

/-- A concrete channel with two queued messages (bytes of "hi" and "!"). -/
def chW : ChanState := { cap := 256, buf := [[104, 105], [33]], closeCount := 0 }

/-- A concrete closed, drained channel. -/
def chClosed : ChanState := { cap := 256, buf := [], closeCount := 1 }

/-- A concrete filesystem view: `a.json` exists, is not a directory, and
contains the bytes of `\x7b"x":1\x7d`. -/
def fsEx : FsView :=
  { statIsDir := fun _ => some false
    readFile := fun _ => some [123, 34, 120, 34, 58, 49, 125] }

/-- A filesystem view where reading fails (file removed before the settle
delay elapsed). -/
def fsGone : FsView :=
  { statIsDir := fun _ => some false
    readFile := fun _ => none }

/-- A concrete creation event for `a.json`. -/
def evEx : FsEvent := { name := "a.json", op := 1 }

/-- The newline-prefixed flattening that `batchLoop` appends after the first
message of a batch. -/
def flatNl : List Msg → List Nat
  | [] => []
  | x :: xs => (newlineByte :: x) ++ flatNl xs

/-- A manager on which `Run` has not yet been called: `cancel` is still nil. -/
def bmPreRun : BroadcastManagerS :=
  { hubSet := false, serverSet := false, cancelSet := false, ctxCancelled := false }

/-- A manager after `Run` has installed everything. -/
def bmRunning : BroadcastManagerS :=
  { hubSet := true, serverSet := true, cancelSet := true, ctxCancelled := false }

/-! Helper lemmas about the broadcast fold. -/

theorem hubBroadcast_nil (msg : Msg) (h : Hub) : hubBroadcast msg [] h = h := rfl

theorem hubBroadcast_cons (msg : Msg) (d : Nat) (rest : List Nat) (h : Hub) :
    hubBroadcast msg (d :: rest) h = hubBroadcast msg rest (broadcastStep msg h d) := rfl

theorem broadcastStep_sendOf_ne (msg : Msg) (h : Hub) (d c : Nat) (hne : c ≠ d) :
    (broadcastStep msg h d).sendOf c = h.sendOf c := by
  unfold broadcastStep
  by_cases hlt : (h.sendOf d).buf.length < (h.sendOf d).cap <;> simp [hlt, hne]

theorem broadcastStep_mem_clients_ne (msg : Msg) (h : Hub) (d c : Nat) (hne : c ≠ d) :
    c ∈ (broadcastStep msg h d).clients ↔ c ∈ h.clients := by
  unfold broadcastStep
  by_cases hlt : (h.sendOf d).buf.length < (h.sendOf d).cap <;>
    simp [hlt, List.mem_erase_of_ne hne]

theorem broadcastStep_not_mem (msg : Msg) (h : Hub) (d c : Nat) (hnm : c ∉ h.clients) :
    c ∉ (broadcastStep msg h d).clients := by
  unfold broadcastStep
  by_cases hlt : (h.sendOf d).buf.length < (h.sendOf d).cap
  · simpa [hlt] using hnm
  · simp only [hlt, if_false]
    intro hmem
    exact hnm (List.mem_of_mem_erase hmem)

theorem broadcastStep_nodup (msg : Msg) (h : Hub) (d : Nat) (hnd : h.clients.Nodup) :
    (broadcastStep msg h d).clients.Nodup := by
  unfold broadcastStep
  by_cases hlt : (h.sendOf d).buf.length < (h.sendOf d).cap <;> simp [hlt]
  · exact hnd
  · exact hnd.erase d

theorem hubBroadcast_sendOf_not_mem (msg : Msg) :
    ∀ (order : List Nat) (h : Hub) (c : Nat), c ∉ order →
      (hubBroadcast msg order h).sendOf c = h.sendOf c := by
  intro order
  induction order with
  | nil => intro h c _; rfl
  | cons d rest ih =>
    intro h c hc
    have hne : c ≠ d := fun heq => hc (heq ▸ List.mem_cons_self d rest)
    have hrest : c ∉ rest := fun hmem => hc (List.mem_cons_of_mem d hmem)
    rw [hubBroadcast_cons, ih _ _ hrest, broadcastStep_sendOf_ne msg h d c hne]

theorem hubBroadcast_not_mem_clients (msg : Msg) :
    ∀ (order : List Nat) (h : Hub) (c : Nat), c ∉ h.clients →
      c ∉ (hubBroadcast msg order h).clients := by
  intro order
  induction order with
  | nil => intro h c hc; exact hc
  | cons d rest ih =>
    intro h c hc
    rw [hubBroadcast_cons]
    exact ih _ _ (broadcastStep_not_mem msg h d c hc)

theorem hubBroadcast_mem_clients_not_mem (msg : Msg) :
    ∀ (order : List Nat) (h : Hub) (c : Nat), c ∉ order →
      (c ∈ (hubBroadcast msg order h).clients ↔ c ∈ h.clients) := by
  intro order
  induction order with
  | nil => intro h c _; exact Iff.rfl
  | cons d rest ih =>
    intro h c hc
    have hne : c ≠ d := fun heq => hc (heq ▸ List.mem_cons_self d rest)
    have hrest : c ∉ rest := fun hmem => hc (List.mem_cons_of_mem d hmem)
    rw [hubBroadcast_cons, ih _ _ hrest]
    exact broadcastStep_mem_clients_ne msg h d c hne

theorem broadcastStep_self_room (msg : Msg) (h : Hub) (c : Nat)
    (hroom : (h.sendOf c).buf.length < (h.sendOf c).cap) :
    (broadcastStep msg h c).sendOf c = { h.sendOf c with buf := (h.sendOf c).buf ++ [msg] }
    ∧ (broadcastStep msg h c).clients = h.clients := by
  unfold broadcastStep
  simp [hroom]

theorem broadcastStep_self_full (msg : Msg) (h : Hub) (c : Nat)
    (hfull : ¬ (h.sendOf c).buf.length < (h.sendOf c).cap) :
    (broadcastStep msg h c).sendOf c = (h.sendOf c).close
    ∧ (broadcastStep msg h c).clients = h.clients.erase c := by
  unfold broadcastStep
  simp [hfull]

/-- Core delivery lemma: a client in the iteration order with room in its
queue gets exactly the payload appended and stays registered. -/
theorem hubBroadcast_delivers (msg : Msg) :
    ∀ (order : List Nat) (h : Hub) (c : Nat), order.Nodup → c ∈ order →
      c ∈ h.clients → (h.sendOf c).buf.length < (h.sendOf c).cap →
      (hubBroadcast msg order h).sendOf c
          = { h.sendOf c with buf := (h.sendOf c).buf ++ [msg] }
      ∧ c ∈ (hubBroadcast msg order h).clients := by
  intro order
  induction order with
  | nil => intro h c _ hc; exact absurd hc (List.not_mem_nil c)
  | cons d rest ih =>
    intro h c hnd hc hmem hroom
    rw [hubBroadcast_cons]
    by_cases hcd : c = d
    · subst hcd
      have hrest : c ∉ rest := (List.nodup_cons.mp hnd).1
      obtain ⟨hsend, hcl⟩ := broadcastStep_self_room msg h c hroom
      constructor
      · rw [hubBroadcast_sendOf_not_mem msg rest _ c hrest, hsend]
      · rw [hubBroadcast_mem_clients_not_mem msg rest _ c hrest, hcl]
        exact hmem
    · have hcrest : c ∈ rest := by
        rcases List.mem_cons.mp hc with h1 | h1
        · exact absurd h1 hcd
        · exact h1
      have hsend := broadcastStep_sendOf_ne msg h d c hcd
      have hmem2 : c ∈ (broadcastStep msg h d).clients :=
        (broadcastStep_mem_clients_ne msg h d c hcd).mpr hmem
      have hroom2 : ((broadcastStep msg h d).sendOf c).buf.length
          < ((broadcastStep msg h d).sendOf c).cap := by rw [hsend]; exact hroom
      obtain ⟨ha, hb⟩ := ih (broadcastStep msg h d) c (List.nodup_cons.mp hnd).2
        hcrest hmem2 hroom2
      rw [hsend] at ha
      exact ⟨ha, hb⟩

/-- Core eviction lemma: a client in the iteration order whose queue is full
is removed from the registry and its channel closed exactly once. -/
theorem hubBroadcast_evicts (msg : Msg) :
    ∀ (order : List Nat) (h : Hub) (c : Nat), order.Nodup → h.clients.Nodup →
      c ∈ order → ¬ (h.sendOf c).buf.length < (h.sendOf c).cap →
      c ∉ (hubBroadcast msg order h).clients
      ∧ (hubBroadcast msg order h).sendOf c = (h.sendOf c).close := by
  intro order
  induction order with
  | nil => intro h c _ _ hc; exact absurd hc (List.not_mem_nil c)
  | cons d rest ih =>
    intro h c hnd hcl hc hfull
    rw [hubBroadcast_cons]
    by_cases hcd : c = d
    · subst hcd
      have hrest : c ∉ rest := (List.nodup_cons.mp hnd).1
      obtain ⟨hsend, hclients⟩ := broadcastStep_self_full msg h c hfull
      constructor
      · have hnm : c ∉ (broadcastStep msg h c).clients := by
          rw [hclients]; exact hcl.not_mem_erase
        exact hubBroadcast_not_mem_clients msg rest _ c hnm
      · rw [hubBroadcast_sendOf_not_mem msg rest _ c hrest, hsend]
    · have hcrest : c ∈ rest := by
        rcases List.mem_cons.mp hc with h1 | h1
        · exact absurd h1 hcd
        · exact h1
      have hsend := broadcastStep_sendOf_ne msg h d c hcd
      have hfull2 : ¬ ((broadcastStep msg h d).sendOf c).buf.length
          < ((broadcastStep msg h d).sendOf c).cap := by rw [hsend]; exact hfull
      obtain ⟨ha, hb⟩ := ih (broadcastStep msg h d) c (List.nodup_cons.mp hnd).2
        (broadcastStep_nodup msg h d hcl) hcrest hfull2
      rw [hsend] at hb
      exact ⟨ha, hb⟩

/-! Helper lemmas about the write pump's batched frame. -/

theorem batchLoop_eq_append (xs : List Msg) :
    ∀ w : List Nat, batchLoop w xs = w ++ flatNl xs := by
  induction xs with
  | nil => intro w; simp [batchLoop, flatNl]
  | cons x xs ih =>
    intro w
    rw [batchLoop, ih, flatNl, List.append_assoc]

theorem specJoin_cons_eq (m : Msg) (rest : List Msg) :
    specJoin (m :: rest) = m ++ flatNl rest := by
  induction rest generalizing m with
  | nil => simp [specJoin, flatNl]
  | cons r rs ih =>
    have h1 : specJoin (m :: r :: rs) = m ++ newlineByte :: specJoin (r :: rs) := rfl
    rw [h1, ih r, flatNl]
    simp

theorem batchLoop_eq_specJoin (m : Msg) (rest : List Msg) :
    batchLoop m rest = specJoin (m :: rest) := by
  rw [batchLoop_eq_append, specJoin_cons_eq]

/-- A drained closed channel wakes the write pump into a close notification. -/
theorem writePumpWake_drained_closed (ch : ChanState) (hcl : ch.closed = true) :
    writePumpWake { ch with buf := [] }
      = some (WakeAction.closeNotify, { ch with buf := [] }) := by
  have h2 : ({ ch with buf := [] } : ChanState).closed = true := hcl
  simp [writePumpWake, h2]

/-- C1: for every session whose outbound queue is at capacity when a broadcast
is processed, that broadcast itself removes the session from the registry and
closes its outbound queue exactly once (its buffered messages untouched); once
the write pump has drained the closed queue, its next wake emits a close
notification (after which it closes the connection and stops); and no later
broadcast, over any valid iteration order of the resulting registry, delivers
to that session or references it. -/
theorem slowConsumerEvictedByBroadcast (h : Hub) (c : Nat) (msg : Msg)
    (order : List Nat) (hnd : h.clients.Nodup) (hord : ValidOrder h order)
    (hc : c ∈ h.clients)
    (hfull : (h.sendOf c).buf.length = (h.sendOf c).cap) :
    c ∉ (hubBroadcast msg order h).clients
    ∧ (hubBroadcast msg order h).sendOf c = (h.sendOf c).close
    ∧ ((hubBroadcast msg order h).sendOf c).buf = (h.sendOf c).buf
    ∧ ((hubBroadcast msg order h).sendOf c).closeCount = (h.sendOf c).closeCount + 1
    ∧ ((hubBroadcast msg order h).sendOf c).closed = true
    ∧ writePumpWake { (hubBroadcast msg order h).sendOf c with buf := [] }
        = some (WakeAction.closeNotify,
            { (hubBroadcast msg order h).sendOf c with buf := [] })
    ∧ (∀ msg2 order2, ValidOrder (hubBroadcast msg order h) order2 →
        (hubBroadcast msg2 order2 (hubBroadcast msg order h)).sendOf c
            = (hubBroadcast msg order h).sendOf c
        ∧ c ∉ (hubBroadcast msg2 order2 (hubBroadcast msg order h)).clients) := by
  have hordnd : order.Nodup := hord.nodup_iff.mpr hnd
  have hco : c ∈ order := hord.mem_iff.mpr hc
  have hnlt : ¬ (h.sendOf c).buf.length < (h.sendOf c).cap := by
    rw [hfull]; exact lt_irrefl _
  obtain ⟨hout, hclose⟩ := hubBroadcast_evicts msg order h c hordnd hnd hco hnlt
  have hcl : ((hubBroadcast msg order h).sendOf c).closed = true := by
    rw [hclose]; simp [ChanState.closed, ChanState.close]
  refine ⟨hout, hclose, ?_, ?_, hcl, ?_, ?_⟩
  · rw [hclose]; simp [ChanState.close]
  · rw [hclose]; simp [ChanState.close]
  · exact writePumpWake_drained_closed _ hcl
  · intro msg2 order2 hord2
    have hco2 : c ∉ order2 := fun hmem => hout (hord2.mem_iff.mp hmem)
    exact ⟨hubBroadcast_sendOf_not_mem msg2 order2 _ c hco2,
      hubBroadcast_not_mem_clients msg2 order2 _ c hout⟩

/-- C1 witness: in `hubW`, client 1's queue is at capacity; broadcasting `[9]`
over the iteration order `[1, 2]` evicts it with all the stated effects. -/
theorem slowConsumerEvictedWitness :
    hubW.clients.Nodup ∧ ValidOrder hubW [1, 2] ∧ 1 ∈ hubW.clients
    ∧ (hubW.sendOf 1).buf.length = (hubW.sendOf 1).cap
    ∧ (1 ∉ (hubBroadcast [9] [1, 2] hubW).clients
      ∧ (hubBroadcast [9] [1, 2] hubW).sendOf 1 = (hubW.sendOf 1).close
      ∧ ((hubBroadcast [9] [1, 2] hubW).sendOf 1).buf = (hubW.sendOf 1).buf
      ∧ ((hubBroadcast [9] [1, 2] hubW).sendOf 1).closeCount
          = (hubW.sendOf 1).closeCount + 1
      ∧ ((hubBroadcast [9] [1, 2] hubW).sendOf 1).closed = true
      ∧ writePumpWake { (hubBroadcast [9] [1, 2] hubW).sendOf 1 with buf := [] }
          = some (WakeAction.closeNotify,
              { (hubBroadcast [9] [1, 2] hubW).sendOf 1 with buf := [] })
      ∧ (∀ msg2 order2, ValidOrder (hubBroadcast [9] [1, 2] hubW) order2 →
          (hubBroadcast msg2 order2 (hubBroadcast [9] [1, 2] hubW)).sendOf 1
              = (hubBroadcast [9] [1, 2] hubW).sendOf 1
          ∧ 1 ∉ (hubBroadcast msg2 order2 (hubBroadcast [9] [1, 2] hubW)).clients)) :=
  ⟨by decide, List.Perm.refl _, by decide, rfl,
    slowConsumerEvictedByBroadcast hubW 1 [9] [1, 2] (by decide)
      (List.Perm.refl _) (by decide) rfl⟩

/-- C2 counterexample: the registry of `hub2` in registration order is
`[1, 2]`, yet `[2, 1]` is also a valid Go map iteration order for a broadcast
over that registry, and it is not registration order — the code does not
visit sessions in registration order. -/
theorem broadcastOrderCounterexample :
    ValidOrder hub2 [2, 1] ∧ hub2.clients = [1, 2]
    ∧ ([2, 1] : List Nat) ≠ hub2.clients :=
  ⟨List.Perm.swap 1 2 [], rfl, by decide⟩

/-- C2 (amended): for every broadcast of a payload, the Hub visits each
session currently in the registry exactly once in an unspecified map-iteration
order — some permutation of the registry, not necessarily registration
order — and, independently per session, enqueues the payload onto each visited
session's outbound queue when it has room, so each registered session with a
non-full queue observes the payload exactly once and stays registered. -/
theorem broadcastDeliversOncePerOrder (h : Hub) (c : Nat) (msg : Msg)
    (order : List Nat) (hnd : h.clients.Nodup) (hord : ValidOrder h order)
    (hc : c ∈ h.clients)
    (hroom : (h.sendOf c).buf.length < (h.sendOf c).cap) :
    (hubBroadcast msg order h).sendOf c
        = { h.sendOf c with buf := (h.sendOf c).buf ++ [msg] }
    ∧ c ∈ (hubBroadcast msg order h).clients :=
  hubBroadcast_delivers msg order h c (hord.nodup_iff.mpr hnd)
    (hord.mem_iff.mpr hc) hc hroom

/-- C2 witness: in `hubW`, client 2's queue has room; broadcasting `[9]` over
the iteration order `[1, 2]` appends exactly one copy of the payload to its
queue and keeps it registered. -/
theorem broadcastDeliversWitness :
    hubW.clients.Nodup ∧ ValidOrder hubW [1, 2] ∧ 2 ∈ hubW.clients
    ∧ (hubW.sendOf 2).buf.length < (hubW.sendOf 2).cap
    ∧ ((hubBroadcast [9] [1, 2] hubW).sendOf 2
          = { hubW.sendOf 2 with buf := (hubW.sendOf 2).buf ++ [[9]] }
      ∧ 2 ∈ (hubBroadcast [9] [1, 2] hubW).clients) :=
  ⟨by decide, List.Perm.refl _, by decide, by decide,
    broadcastDeliversOncePerOrder hubW 2 [9] [1, 2] (by decide)
      (List.Perm.refl _) (by decide) (by decide)⟩

/-- C6: when the write pump wakes with a message available, it drains all
currently queued messages into a single write, joined pairwise by exactly one
newline byte in FIFO order (the batched frame equals the spec-side
newline-join of the whole queue); if instead the queue has been closed and
drained, it sends a close notification and stops. -/
theorem writePumpDrainSpec (ch : ChanState) :
    (∀ m rest, ch.buf = m :: rest →
        writePumpWake ch
          = some (WakeAction.frame (specJoin (m :: rest)), { ch with buf := [] }))
    ∧ (ch.buf = [] → ch.closed = true →
        writePumpWake ch = some (WakeAction.closeNotify, ch)) := by
  constructor
  · intro m rest hbuf
    simp [writePumpWake, hbuf, batchLoop_eq_specJoin]
  · intro h1 h2
    simp [writePumpWake, h1, h2]

/-- C6 witness: a queue holding the bytes of "hi" and "!" is drained into the
single newline-joined frame, and a closed drained queue yields a close
notification. -/
theorem writePumpDrainWitness :
    chW.buf = [104, 105] :: [[33]]
    ∧ writePumpWake chW
        = some (WakeAction.frame (specJoin ([104, 105] :: [[33]])),
            { chW with buf := [] })
    ∧ chClosed.buf = [] ∧ chClosed.closed = true
    ∧ writePumpWake chClosed = some (WakeAction.closeNotify, chClosed) :=
  ⟨rfl, (writePumpDrainSpec chW).1 [104, 105] [[33]] rfl, rfl, rfl,
    (writePumpDrainSpec chClosed).2 rfl rfl⟩

/-- C3: the first `Hub.Shutdown` on a running hub closes every registered
session's queue, clears the registry, and closes the three event channels; a
second call is a no-op — it leaves the hub state (empty registry, closed
channels) unchanged and in particular closes no channel a second time. -/
theorem shutdownIdempotentSpec (h : Hub) (hrun : h.closed = false) :
    hubShutdown (hubShutdown h) = hubShutdown h
    ∧ (hubShutdown h).clients = []
    ∧ (hubShutdown h).closed = true
    ∧ (∀ c, c ∈ h.clients → (hubShutdown h).sendOf c = (h.sendOf c).close)
    ∧ (hubShutdown h).broadcastCh = h.broadcastCh.close
    ∧ (hubShutdown h).registerCh = h.registerCh.close
    ∧ (hubShutdown h).unregisterCh = h.unregisterCh.close
    ∧ (∀ c, ((hubShutdown (hubShutdown h)).sendOf c).closeCount
          = ((hubShutdown h).sendOf c).closeCount)
    ∧ (hubShutdown (hubShutdown h)).broadcastCh.closeCount
          = (hubShutdown h).broadcastCh.closeCount := by
  have hcl2 : (hubShutdown h).closed = true := by simp [hubShutdown, hrun]
  have hid : hubShutdown (hubShutdown h) = hubShutdown h := by
    rw [hubShutdown, hcl2]
    simp
  refine ⟨hid, ?_, hcl2, ?_, ?_, ?_, ?_, fun c => by rw [hid], by rw [hid]⟩
  · simp [hubShutdown, hrun]
  · intro c hc
    simp [hubShutdown, hrun, hc]
  · simp [hubShutdown, hrun]
  · simp [hubShutdown, hrun]
  · simp [hubShutdown, hrun]

/-- C3 witness: shutting `hubW` down twice — the first call clears the
registry, closes both clients' queues and the three event channels; the
second call changes nothing. -/
theorem shutdownIdempotentWitness :
    hubW.closed = false
    ∧ (hubShutdown (hubShutdown hubW) = hubShutdown hubW
      ∧ (hubShutdown hubW).clients = []
      ∧ (hubShutdown hubW).closed = true
      ∧ (∀ c, c ∈ hubW.clients → (hubShutdown hubW).sendOf c = (hubW.sendOf c).close)
      ∧ (hubShutdown hubW).broadcastCh = hubW.broadcastCh.close
      ∧ (hubShutdown hubW).registerCh = hubW.registerCh.close
      ∧ (hubShutdown hubW).unregisterCh = hubW.unregisterCh.close
      ∧ (∀ c, ((hubShutdown (hubShutdown hubW)).sendOf c).closeCount
            = ((hubShutdown hubW).sendOf c).closeCount)
      ∧ (hubShutdown (hubShutdown hubW)).broadcastCh.closeCount
            = (hubShutdown hubW).broadcastCh.closeCount) :=
  ⟨rfl, shutdownIdempotentSpec hubW rfl⟩

/-- C4: processing an unregister event is idempotent — the first unregister
of a registered session removes it from the registry and closes its queue;
unregistering an absent session (including one already evicted by a broadcast)
changes nothing, so across repeated unregisters the queue is closed at most
once. -/
theorem unregisterIdempotentSpec (h : Hub) (c : Nat) (hnd : h.clients.Nodup) :
    (c ∈ h.clients →
        (hubUnregister h c).clients = h.clients.erase c
        ∧ (hubUnregister h c).sendOf c = (h.sendOf c).close
        ∧ c ∉ (hubUnregister h c).clients)
    ∧ (c ∉ h.clients → hubUnregister h c = h)
    ∧ hubUnregister (hubUnregister h c) c = hubUnregister h c
    ∧ ((h.sendOf c).closeCount = 0 →
        ((hubUnregister (hubUnregister h c) c).sendOf c).closeCount ≤ 1)
    ∧ (∀ msg order, ValidOrder h order →
        (h.sendOf c).buf.length = (h.sendOf c).cap → c ∈ h.clients →
        hubUnregister (hubBroadcast msg order h) c = hubBroadcast msg order h) := by
  have habsent : ∀ h2 : Hub, c ∉ h2.clients → hubUnregister h2 c = h2 := by
    intro h2 hc
    simp [hubUnregister, hc]
  have hpresent : c ∈ h.clients →
      (hubUnregister h c).clients = h.clients.erase c
      ∧ (hubUnregister h c).sendOf c = (h.sendOf c).close
      ∧ c ∉ (hubUnregister h c).clients := by
    intro hc
    refine ⟨by simp [hubUnregister, hc], by simp [hubUnregister, hc], ?_⟩
    simp only [hubUnregister, hc, if_true]
    exact hnd.not_mem_erase
  have hid : hubUnregister (hubUnregister h c) c = hubUnregister h c := by
    by_cases hc : c ∈ h.clients
    · exact habsent _ (hpresent hc).2.2
    · rw [habsent h hc, habsent h hc]
  refine ⟨hpresent, habsent h, hid, ?_, ?_⟩
  · intro hzero
    rw [hid]
    by_cases hc : c ∈ h.clients
    · rw [(hpresent hc).2.1, ChanState.close, hzero]
    · rw [habsent h hc, hzero]
      exact Nat.zero_le 1
  · intro msg order hord hfull hc
    have hnlt : ¬ (h.sendOf c).buf.length < (h.sendOf c).cap := by
      rw [hfull]; exact lt_irrefl _
    exact habsent _ (hubBroadcast_evicts msg order h c (hord.nodup_iff.mpr hnd)
      hnd (hord.mem_iff.mpr hc) hnlt).1

/-- C4 witness: unregistering client 1 of `hubW` twice — the first call
removes it and closes its queue, the second is a no-op, the close count stays
at one — and after client 1 is evicted by a broadcast, a late unregister event
for it changes nothing. -/
theorem unregisterIdempotentWitness :
    hubW.clients.Nodup ∧ 1 ∈ hubW.clients
    ∧ ((hubUnregister hubW 1).clients = hubW.clients.erase 1
      ∧ (hubUnregister hubW 1).sendOf 1 = (hubW.sendOf 1).close
      ∧ 1 ∉ (hubUnregister hubW 1).clients)
    ∧ hubUnregister (hubUnregister hubW 1) 1 = hubUnregister hubW 1
    ∧ (hubW.sendOf 1).closeCount = 0
    ∧ ((hubUnregister (hubUnregister hubW 1) 1).sendOf 1).closeCount ≤ 1
    ∧ hubUnregister (hubBroadcast [9] [1, 2] hubW) 1 = hubBroadcast [9] [1, 2] hubW :=
  ⟨by decide, by decide,
    (unregisterIdempotentSpec hubW 1 (by decide)).1 (by decide),
    (unregisterIdempotentSpec hubW 1 (by decide)).2.2.1,
    rfl,
    (unregisterIdempotentSpec hubW 1 (by decide)).2.2.2.1 rfl,
    (unregisterIdempotentSpec hubW 1 (by decide)).2.2.2.2 [9] [1, 2]
      (List.Perm.refl _) rfl (by decide)⟩

/-- C5 counterexample: registering client 5 after `hub2` has been shut down is
not a safe no-op — the send on the closed register channel faults (panics in
Go), modelled as `none`. -/
theorem registerAfterShutdownCx :
    registerAttempt (hubShutdown hub2) 5 = none := rfl

/-- C5 (amended): registering a session after `Hub.Shutdown` has completed
faults — the `WSHandler` send on the closed register channel panics; the
handler's fault barrier recovers the panic into an internal-server-error
response, the session is never registered, and the registry (already cleared
by shutdown) is unchanged. -/
theorem registerAfterShutdownSpec (h : Hub) (c : Nat) (hrun : h.closed = false) :
    registerAttempt (hubShutdown h) c = none
    ∧ wsHandle (hubShutdown h) c = WsOutcome.internalError (hubShutdown h)
    ∧ (hubShutdown h).clients = [] := by
  have hregcl : (hubShutdown h).registerCh.closed = true := by
    simp [hubShutdown, hrun, ChanState.close, ChanState.closed]
  refine ⟨?_, ?_, ?_⟩
  · simp [registerAttempt, hregcl]
  · simp [wsHandle, registerAttempt, hregcl]
  · simp [hubShutdown, hrun]

/-- C5 witness: after shutting down `hub2`, the registration attempt for
client 7 faults, the handler reports an internal error leaving the hub
unchanged, and the registry is empty. -/
theorem registerAfterShutdownWitness :
    hub2.closed = false
    ∧ (registerAttempt (hubShutdown hub2) 7 = none
      ∧ wsHandle (hubShutdown hub2) 7 = WsOutcome.internalError (hubShutdown hub2)
      ∧ (hubShutdown hub2).clients = []) :=
  ⟨rfl, registerAfterShutdownSpec hub2 7 rfl⟩

/-- C7: for a file-creation event on a non-directory path, the watcher waits
the fixed 100 ms settle delay and then reads the file: on success it calls
`Hub.Broadcast` exactly once with the file's bytes; on a read failure it logs
and skips the event — no broadcast, no retry — and in both cases the watch
loop continues. -/
theorem watcherCreateSpec (fs : FsView) (e : FsEvent)
    (hop : e.op &&& fsnotifyCreate = fsnotifyCreate)
    (hdir : fs.statIsDir e.name = some false) :
    (∀ content, fs.readFile e.name = some content →
        watcherHandleEvent fs e
          = { delayMs := settleDelayMs, broadcasts := [content], keepRunning := true })
    ∧ (fs.readFile e.name = none →
        watcherHandleEvent fs e
          = { delayMs := settleDelayMs, broadcasts := [], keepRunning := true })
    ∧ settleDelayMs = 100 := by
  refine ⟨?_, ?_, rfl⟩
  · intro content hread
    simp [watcherHandleEvent, hop, hdir, hread]
  · intro hread
    simp [watcherHandleEvent, hop, hdir, hread]

/-- C7 witness: creating `a.json` holding the bytes of `\x7b"x":1\x7d` yields
exactly one broadcast with those bytes after the 100 ms settle delay, and the
same event with the file gone by read time yields no broadcast while the loop
continues. -/
theorem watcherCreateWitness :
    evEx.op &&& fsnotifyCreate = fsnotifyCreate
    ∧ fsEx.statIsDir evEx.name = some false
    ∧ fsEx.readFile evEx.name = some [123, 34, 120, 34, 58, 49, 125]
    ∧ watcherHandleEvent fsEx evEx
        = { delayMs := settleDelayMs,
            broadcasts := [[123, 34, 120, 34, 58, 49, 125]], keepRunning := true }
    ∧ fsGone.statIsDir evEx.name = some false
    ∧ fsGone.readFile evEx.name = none
    ∧ watcherHandleEvent fsGone evEx
        = { delayMs := settleDelayMs, broadcasts := [], keepRunning := true } :=
  ⟨rfl, rfl, rfl,
    (watcherCreateSpec fsEx evEx rfl rfl).1 [123, 34, 120, 34, 58, 49, 125] rfl,
    rfl, rfl,
    (watcherCreateSpec fsGone evEx rfl rfl).2.1 rfl⟩

/-- C8: every GET /health request is answered with status 200 and body "ok",
whatever the Hub's registry contents or lifecycle state — the route's closure
consults nothing, so the response is identical for a running hub, a hub with
one more registered session, and a shut-down hub. -/
theorem healthAlwaysOkSpec (hub : Hub) :
    serveMux hub ("/health") = RouteResult.response healthResponse
    ∧ serveMux (hubShutdown hub) ("/health") = RouteResult.response healthResponse
    ∧ (∀ c, serveMux (hubRegister hub c) ("/health") = RouteResult.response healthResponse)
    ∧ healthResponse.status = 200 ∧ healthResponse.body = "ok" :=
  ⟨rfl, rfl, fun _ => rfl, rfl, rfl⟩

/-- C9: the keepalive ping period `(pongWait * 9) / 10` equals exactly 54
seconds in integer `time.Duration` arithmetic (no int64 overflow:
`pongWait * 9` is far below `2 ^ 63`), strictly less than the 60-second
liveness read deadline `pongWait`, so a liveness probe is scheduled before the
read deadline can expire on an idle connection. -/
theorem pingPeriodSpec :
    pingPeriodNs = 54 * nsPerSecond
    ∧ pingPeriodNs < pongWaitNs
    ∧ pongWaitNs * 9 < 2 ^ 63 := by
  refine ⟨?_, ?_, ?_⟩ <;> norm_num [pingPeriodNs, pongWaitNs, nsPerSecond]

/-- C10: `BroadcastManager.Stop` before `Run` (cancel function still nil) is a
guarded no-op that does not fault; every call to `Stop` returns (never
`none`), only marks the internal context cancelled, changes no other manager
state, and is idempotent. -/
theorem stopSafeSpec (m : BroadcastManagerS) :
    (m.cancelSet = false → bmStop m = some m)
    ∧ (m.cancelSet = true → bmStop m = some { m with ctxCancelled := true })
    ∧ (∀ m2, bmStop m = some m2 →
        m2.hubSet = m.hubSet ∧ m2.serverSet = m.serverSet
        ∧ m2.cancelSet = m.cancelSet ∧ bmStop m2 = some m2) := by
  refine ⟨?_, ?_, ?_⟩
  · intro hnc
    simp [bmStop, hnc]
  · intro hc
    simp [bmStop, cancelCall, hc]
  · intro m2 hm2
    by_cases hc : m.cancelSet
    · simp [bmStop, cancelCall, hc] at hm2
      subst hm2
      simp [bmStop, cancelCall, hc]
    · simp [bmStop, hc] at hm2
      subst hm2
      simp [bmStop, hc]

/-- C10 witness: `Stop` on a manager whose `Run` has not installed the cancel
function is a no-op; on a running manager it only sets the cancelled flag,
preserves every other field, and a second `Stop` changes nothing. -/
theorem stopSafeWitness :
    bmPreRun.cancelSet = false ∧ bmStop bmPreRun = some bmPreRun
    ∧ bmRunning.cancelSet = true
    ∧ bmStop bmRunning = some { bmRunning with ctxCancelled := true }
    ∧ (({ bmRunning with ctxCancelled := true } : BroadcastManagerS).hubSet
          = bmRunning.hubSet
      ∧ ({ bmRunning with ctxCancelled := true } : BroadcastManagerS).serverSet
          = bmRunning.serverSet
      ∧ ({ bmRunning with ctxCancelled := true } : BroadcastManagerS).cancelSet
          = bmRunning.cancelSet
      ∧ bmStop { bmRunning with ctxCancelled := true }
          = some { bmRunning with ctxCancelled := true }) :=
  ⟨rfl, (stopSafeSpec bmPreRun).1 rfl, rfl,
    (stopSafeSpec bmRunning).2.1 rfl,
    (stopSafeSpec bmRunning).2.2 { bmRunning with ctxCancelled := true }
      ((stopSafeSpec bmRunning).2.1 rfl)⟩

end HexToolset
